import Mathlib

/-
Formal model of the deepbound terrain generation pipeline
(src/core/worldgen/world_generator.cpp, fastnoise_wrapper.cpp).

Modelling conventions:
- C++ float arithmetic is modelled over Q (exact rationals); float literals
  are taken at their decimal value.
- FastNoise generator graphs are modelled as abstract sample functions
  (x, y, seed) -> Q. GenUniformGrid2D with step 1.0 starting at
  (x0, y0) fills buffer cell (i, j) with the sample at (x0+i, y0+j),
  so batched buffers and GenSingle2D calls sample one common function.
  A null SmartNode is Option.none; a zero-filled buffer reads as 0.
- std::sin is modelled by an abstract function sinQ carried in the
  configuration: its exact values are never load-bearing for the
  verified properties.
- C++ int is modelled by Z; the one place where 32-bit overflow and
  bitwise xor are observable (the block-layer thickness hash) models
  the wraparound explicitly.
- Tiles are identified by their code string; a null tile pointer
  (air) is Option.none.
-/

namespace Deepbound

attribute [local semireducible] Rat.add Rat.sub Rat.mul Rat.inv Rat.ofScientific

abbrev Tile := String

/-- Abstract coherent-noise sample function: (x, y, seed) to value. -/
abbrev NoiseFn := ℚ → ℚ → ℤ → ℚ

/-- Sampling a possibly-null noise node: a null node contributes the
zero that a zero-initialized buffer would hold. -/
def sampleN : Option NoiseFn → ℚ → ℚ → ℤ → ℚ
  | none, _, _, _ => 0
  | some f, x, y, s => f x y s

/-- C++ cast from float to int: truncation toward zero. -/
def truncQ (q : ℚ) : ℤ :=
  if 0 ≤ q then ⌊q⌋ else ⌈q⌉

/-- std::fmod with divisor 1.0 (sign follows the dividend). -/
def fmod1 (a : ℚ) : ℚ := a - truncQ a

/-- std::max(lo, std::min(hi, v)). -/
def clampQ (lo hi v : ℚ) : ℚ := max lo (min hi v)

/-- Reinterpret an integer as a 32-bit two's-complement int. -/
def wrap32 (z : ℤ) : ℤ := (z + 2 ^ 31) % 2 ^ 32 - 2 ^ 31

/-- Bitwise xor of two 32-bit ints (via their unsigned representations). -/
def ixor32 (a b : ℤ) : ℤ :=
  wrap32 (Int.ofNat (Nat.xor (a % 2 ^ 32).toNat (b % 2 ^ 32).toNat))

/-- Landform rule (struct Landform): continental-noise threshold, base
height, height variance, overhang strength. The per-landform noise
generators live in a parallel vector in the generator. -/
structure Landform where
  threshold : ℚ
  base_height : ℚ
  height_variance : ℚ
  overhang_strength : ℚ
  deriving DecidableEq

instance : Inhabited Landform := ⟨⟨0, 0, 0, 0⟩⟩

/-- struct BlockLayerEntry: a soil layer entry with thickness range and
its registry-resolved tile (none when the code did not resolve). -/
structure BlockLayerEntry where
  tile_code : String
  min_thickness : ℤ
  max_thickness : ℤ
  resolved_tile : Option Tile
  deriving DecidableEq

/-- struct BlockLayer: climate-gated list of soil entries. -/
structure BlockLayer where
  min_temp : ℚ
  max_temp : ℚ
  min_rain : ℚ
  max_rain : ℚ
  entries : List BlockLayerEntry
  submerged_entries : List BlockLayerEntry
  deriving DecidableEq

/-- struct ProvinceLayer: a rock mixture layer inside a province. -/
structure ProvinceLayer where
  resolved_tile : Option Tile
  type : String
  frequency : ℚ
  threshold : ℚ
  deriving DecidableEq

/-- struct GeologicalProvince: deep-stone tile plus mixture layers. -/
structure GeologicalProvince where
  resolved_tile : Option Tile
  layers : List ProvinceLayer
  deriving DecidableEq

instance : Inhabited GeologicalProvince := ⟨⟨none, []⟩⟩

/-- struct CaveConfig. -/
structure CaveConfig where
  cheese_enabled : Bool
  cheese_threshold : ℚ
  cheese_fade_depth : ℚ
  cheese_seed : ℤ
  worm_enabled : Bool
  worm_thickness : ℚ
  worm_thickness_variation : ℚ
  worm_fade_depth : ℚ
  worm_seed : ℤ
  global_min_depth : ℤ
  deriving DecidableEq

/-- The world_generator_t state that generate_chunk reads: seed and
constants, rule tables, noise nodes and cached registry tiles. -/
structure GenConfig where
  global_seed : ℤ
  sea_level : ℤ
  landforms : List Landform
  landform_noises : List (Option NoiseFn)
  block_layers : List BlockLayer
  provinces : List GeologicalProvince
  cave : CaveConfig
  continental_noise : Option NoiseFn
  temp_noise : Option NoiseFn
  rain_noise : Option NoiseFn
  overhang_noise : Option NoiseFn
  cheese_noise : Option NoiseFn
  worm_noise : Option NoiseFn
  province_noise : Option NoiseFn
  province_mix_noise : Option NoiseFn
  strata_noise : Option NoiseFn
  stone_tile : Option Tile
  water_tile : Option Tile
  sinQ : ℚ → ℚ

/-- fast_noise_wrapper_t::get_custom_noise: weighted multi-octave sum.
Octaves with zero amplitude are skipped; a missing threshold defaults
to 0 and a missing frequency to 0.0002 * 1.6 ^ i. -/
def customNoiseGo (sb : NoiseFn) (seed : ℤ) (x y : ℚ) :
    ℕ → List ℚ → List ℚ → List ℚ → ℚ
  | _, [], _, _ => 0
  | i, amp :: amps, ths, freqs =>
    let th := ths.headD 0
    let freq := freqs.headD ((2 / 10000) * (8 / 5) ^ i)
    let term :=
      if amp ≠ 0 then
        let val := sb (x * freq) (y * freq) (seed + i * 1337)
        max 0 ((val + 1) * (1 / 2) * amp - th)
      else 0
    term + customNoiseGo sb seed x y (i + 1) amps ths.tail freqs.tail

/-- Entry point of the custom weighted sampler. -/
def get_custom_noise (sb : NoiseFn) (seed : ℤ) (x y : ℚ)
    (amps ths freqs : List ℚ) : ℚ :=
  customNoiseGo sb seed x y 0 amps ths freqs

/-- The formula the specification text ascribes to the custom sampler:
the sum over ALL octaves of max(0, ((noise+1)/2 * amplitude) - threshold),
with no special case for zero amplitudes. Used only to compare against
get_custom_noise. -/
def customNoiseSpecGo (sb : NoiseFn) (seed : ℤ) (x y : ℚ) :
    ℕ → List ℚ → List ℚ → List ℚ → ℚ
  | _, [], _, _ => 0
  | i, amp :: amps, ths, freqs =>
    let th := ths.headD 0
    let freq := freqs.headD ((2 / 10000) * (8 / 5) ^ i)
    let val := sb (x * freq) (y * freq) (seed + i * 1337)
    max 0 ((val + 1) * (1 / 2) * amp - th) +
      customNoiseSpecGo sb seed x y (i + 1) amps ths.tail freqs.tail

/-- Spec-side custom sampler (see customNoiseSpecGo). -/
def custom_noise_spec (sb : NoiseFn) (seed : ℤ) (x y : ℚ)
    (amps ths freqs : List ℚ) : ℚ :=
  customNoiseSpecGo sb seed x y 0 amps ths freqs

/-- world_generator_t::get_base_density (world_generator.cpp:933).
Note the overhang noise is sampled at (x, 1.5 * y). -/
def get_base_density (cfg : GenConfig) (x y : ℤ) (surface_height overhang_strength : ℚ) : ℚ :=
  if 1 / 1000 < overhang_strength ∧ cfg.overhang_noise.isSome then
    (surface_height - y) +
      sampleN cfg.overhang_noise x (y * (3 / 2)) (cfg.global_seed + 12345) * overhang_strength * 40
  else
    surface_height - y

/-- Surface fade factor shared by both cave types. -/
def fadeFor (depth mind fd : ℚ) : ℚ :=
  if depth < fd then clampQ 0 1 ((depth - mind) / (fd - mind)) else 1

/-- world_generator_t::get_cave_density_modifier (world_generator.cpp:953). -/
def get_cave_density_modifier (cfg : GenConfig) (x y : ℤ) (surface_height : ℚ) : ℚ :=
  let depth := surface_height - y
  if depth < cfg.cave.global_min_depth then 0
  else
    let cheese_part :=
      if cfg.cave.cheese_enabled ∧ cfg.cheese_noise.isSome then
        let n := sampleN cfg.cheese_noise x y cfg.cave.cheese_seed
        let fade := fadeFor depth cfg.cave.global_min_depth cfg.cave.cheese_fade_depth
        if cfg.cave.cheese_threshold < n then
          -((n - cfg.cave.cheese_threshold) * 1000 * fade)
        else 0
      else 0
    let worm_part :=
      if cfg.cave.worm_enabled ∧ cfg.worm_noise.isSome then
        let n := sampleN cfg.worm_noise x y cfg.cave.worm_seed
        let fade := fadeFor depth cfg.cave.global_min_depth cfg.cave.worm_fade_depth
        let thickness := cfg.cave.worm_thickness +
          (if 1 / 1000 < cfg.cave.worm_thickness_variation ∧ cfg.overhang_noise.isSome then
            sampleN cfg.overhang_noise (x + 500) (y * (3 / 2) + 500) (cfg.global_seed + 999) *
              cfg.cave.worm_thickness_variation
          else 0)
        if 1 - thickness < n then -(1000 * fade) else 0
      else 0
    cheese_part + worm_part

/-- world_generator_t::get_density_final (world_generator.cpp:923):
early exit when the base density is already non-positive. -/
def get_density_final (cfg : GenConfig) (x y : ℤ) (surface_height overhang_strength : ℚ) : ℚ :=
  let base := get_base_density cfg x y surface_height overhang_strength
  if base ≤ 0 then base
  else base + get_cave_density_modifier cfg x y surface_height

/-- chunk_t::SIZE. -/
abbrev SIZE : ℕ := 32

/-- Scan for the pair of adjacent landforms bracketing the continental
value (the for loop in generate_chunk / get_height_at); i1 = i2 = 0 and
t = 0 when no interval matches. -/
def lfScanGo (cv : ℚ) : ℕ → List Landform → ℕ × ℕ × ℚ
  | _, [] => (0, 0, 0)
  | _, [_] => (0, 0, 0)
  | i, a :: b :: rest =>
    if a.threshold ≤ cv ∧ cv < b.threshold then
      let range := b.threshold - a.threshold
      let t := if 1 / 10000 < range then (cv - a.threshold) / range else 0
      (i, i + 1, t)
    else lfScanGo cv (i + 1) (b :: rest)

/-- Landform bracket selection for a continental-noise value: clamped to
the first / last landform outside the threshold range, interpolated
between adjacent landforms inside it. -/
def landformInterp (lfs : List Landform) (cv : ℚ) : ℕ × ℕ × ℚ :=
  match lfs with
  | [] => (0, 0, 0)
  | l0 :: rest =>
    if cv ≤ l0.threshold then (0, 0, 0)
    else if ((l0 :: rest).getLastD l0).threshold ≤ cv then
      (lfs.length - 1, lfs.length - 1, 0)
    else lfScanGo cv 0 (l0 :: rest)

/-- Height contribution of landform idx at column gx (the get_lf_h_local
lambda): base height plus landform noise times variance. -/
def lfHeight (cfg : GenConfig) (gx : ℤ) (idx : ℕ) : ℚ :=
  let lf := cfg.landforms.getD idx default
  let nv :=
    match cfg.landform_noises.getD idx none with
    | some f => f gx 0 (cfg.global_seed + 1337 + idx)
    | none => 0
  lf.base_height + nv * lf.height_variance

/-- Per-column data cached by generate_chunk step 2: surface height,
blended overhang strength, climate and the climate-selected block layer. -/
structure ColumnData where
  surface_height : ℚ
  overhang_strength : ℚ
  climate_t : ℚ
  climate_r : ℚ
  active_layer : Option BlockLayer

/-- The per-column derivation in generate_chunk (world_generator.cpp:530):
continental sample, landform bracket, blended height and overhang
strength, climate, and the first climate-matching block layer (falling
back to the first table entry). -/
def columnData (cfg : GenConfig) (gx : ℤ) : ColumnData :=
  let cv := sampleN cfg.continental_noise gx 0 cfg.global_seed
  let sel := landformInterp cfg.landforms cv
  let i1 := sel.1
  let i2 := sel.2.1
  let t := sel.2.2
  let h1 := lfHeight cfg gx i1
  let h2 := if i1 = i2 then h1 else lfHeight cfg gx i2
  let os1 := (cfg.landforms.getD i1 default).overhang_strength
  let os2 := (cfg.landforms.getD i2 default).overhang_strength
  let ct := sampleN cfg.temp_noise gx 0 (cfg.global_seed + 999) * 30 + 10
  let cr := (sampleN cfg.rain_noise gx 0 (cfg.global_seed + 888) + 1) * (1 / 2) * 255
  let al :=
    match cfg.block_layers.find? (fun l =>
        decide (l.min_temp ≤ ct ∧ ct ≤ l.max_temp ∧ l.min_rain ≤ cr ∧ cr ≤ l.max_rain)) with
    | some l => some l
    | none => cfg.block_layers.head?
  { surface_height := h1 + (h2 - h1) * t
    overhang_strength := os1 * (1 - t) + os2 * t
    climate_t := ct
    climate_r := cr
    active_layer := al }

/-- Batched overhang buffer value at (gx, gy); zero when the node is null. -/
def overhangVal (cfg : GenConfig) (gx gy : ℤ) : ℚ :=
  sampleN cfg.overhang_noise gx gy (cfg.global_seed + 12345)

/-- Batched cheese buffer value; the buffer stays zero-filled unless
cheese caves are enabled and the node exists. -/
def cheeseVal (cfg : GenConfig) (gx gy : ℤ) : ℚ :=
  if cfg.cave.cheese_enabled ∧ cfg.cheese_noise.isSome then
    sampleN cfg.cheese_noise gx gy cfg.cave.cheese_seed
  else 0

/-- Batched worm buffer value (same guard pattern as cheeseVal). -/
def wormVal (cfg : GenConfig) (gx gy : ℤ) : ℚ :=
  if cfg.cave.worm_enabled ∧ cfg.worm_noise.isSome then
    sampleN cfg.worm_noise gx gy cfg.cave.worm_seed
  else 0

/-- Batched province buffer value (filled only for a non-empty table). -/
def provinceVal (cfg : GenConfig) (gx gy : ℤ) : ℚ :=
  if ¬cfg.provinces.isEmpty ∧ cfg.province_noise.isSome then
    sampleN cfg.province_noise gx gy (cfg.global_seed + 9999)
  else 0

/-- Batched province mix buffer value. -/
def mixVal (cfg : GenConfig) (gx gy : ℤ) : ℚ :=
  sampleN cfg.province_mix_noise gx gy (cfg.global_seed + 777)

/-- Batched strata buffer value. -/
def strataVal (cfg : GenConfig) (gx gy : ℤ) : ℚ :=
  sampleN cfg.strata_noise gx gy (cfg.global_seed + 111)

/-- Step 1 of the per-cell loop: base density from the column surface
height plus the buffered overhang term (world_generator.cpp:648). -/
def batchBase (cfg : GenConfig) (col : ColumnData) (gx gy : ℤ) : ℚ :=
  (col.surface_height - gy) +
    (if 1 / 1000 < col.overhang_strength ∧ cfg.overhang_noise.isSome then
      overhangVal cfg gx gy * col.overhang_strength * 40
    else 0)

/-- Step 2 of the per-cell loop: the cave modification accumulated when
the base density is positive (world_generator.cpp:657). Unlike the
scalar get_cave_density_modifier this path applies no worm thickness
variation. -/
def batchCaveMod (cfg : GenConfig) (col : ColumnData) (gx gy : ℤ) : ℚ :=
  let depth := col.surface_height - gy
  if (cfg.cave.global_min_depth : ℚ) ≤ depth then
    (if cfg.cave.cheese_enabled then
      let fade := fadeFor depth cfg.cave.global_min_depth cfg.cave.cheese_fade_depth
      let n := cheeseVal cfg gx gy
      if cfg.cave.cheese_threshold < n then -((n - cfg.cave.cheese_threshold) * 1000 * fade)
      else 0
    else 0) +
    (if cfg.cave.worm_enabled then
      let fade := fadeFor depth cfg.cave.global_min_depth cfg.cave.worm_fade_depth
      let n := wormVal cfg gx gy
      if 1 - cfg.cave.worm_thickness < n then -(1000 * fade) else 0
    else 0)
  else 0

/-- Final density of a cell on the batched path. -/
def batchFinal (cfg : GenConfig) (col : ColumnData) (gx gy : ℤ) : ℚ :=
  let b := batchBase cfg col gx gy
  if 0 < b then b + batchCaveMod cfg col gx gy else b

/-- Base density of the cell above, batched path (world_generator.cpp:708). -/
def batchAboveBase (cfg : GenConfig) (col : ColumnData) (gx gy : ℤ) : ℚ :=
  (col.surface_height - (gy + 1)) +
    (if 1 / 1000 < col.overhang_strength ∧ cfg.overhang_noise.isSome then
      overhangVal cfg gx (gy + 1) * col.overhang_strength * 40
    else 0)

/-- Final density of the cell above, batched path: a flat -100 carve
approximation with no fade factor (world_generator.cpp:712). -/
def batchAboveFinal (cfg : GenConfig) (col : ColumnData) (gx gy : ℤ) : ℚ :=
  let ba := batchAboveBase cfg col gx gy
  let cmod :=
    if 0 < ba then
      let dup := col.surface_height - (gy + 1)
      if (cfg.cave.global_min_depth : ℚ) ≤ dup then
        (if cfg.cave.cheese_enabled ∧ cfg.cave.cheese_threshold < cheeseVal cfg gx (gy + 1) then
          (-100 : ℚ)
        else 0) +
        (if cfg.cave.worm_enabled ∧ 1 - cfg.cave.worm_thickness < wormVal cfg gx (gy + 1) then
          (-100 : ℚ)
        else 0)
      else 0
    else 0
  ba + cmod

/-- Province index computation (world_generator.cpp:755): the distorted
noise value is normalized, clamped to [0, 0.99] and scaled by the table
size; the C++ int cast truncates (equals floor on this non-negative
product). -/
def provinceIndex (pv sv : ℚ) (useStrata : Bool) (n : ℕ) : ℤ :=
  let pvd := pv + (if useStrata then sv * (15 / 100) else 0)
  let norm := clampQ 0 (99 / 100) ((pvd + 1) * (1 / 2))
  truncQ (norm * n)

/-- Whether a province mixture layer applies at a cell, by layer type
(world_generator.cpp:770). -/
def layerApplies (cfg : GenConfig) (gx gy : ℤ) (depth : ℤ) (mixv strav : ℚ)
    (li : ℕ) (layer : ProvinceLayer) : Bool :=
  if layer.type = "blob" then
    decide (layer.threshold < fmod1 (mixv + li * (31 / 100)))
  else if layer.type = "layer" ∨ layer.type = "strata" then
    decide (layer.threshold < cfg.sinQ ((gy : ℚ) * (1 / 10) * layer.frequency + strav * 4))
  else if layer.type = "vein" then
    decide (layer.threshold + 2 / 10 < cfg.sinQ (mixv * 10 + (gy : ℚ) * (1 / 10)))
  else if layer.type = "dyke" then
    decide (layer.threshold < cfg.sinQ ((gx : ℚ) * (1 / 10) * layer.frequency + mixv * 2))
  else if layer.type = "crust" then
    decide (depth < truncQ (layer.frequency * 100) ∧ layer.threshold < mixv)
  else false

/-- Fold over a province's mixture layers: a layer with a resolved tile
that applies overwrites the running deep-stone choice (last one wins). -/
def layersFold (cfg : GenConfig) (gx gy : ℤ) (depth : ℤ) (mixv strav : ℚ) :
    ℕ → List ProvinceLayer → Option Tile → Option Tile
  | _, [], ds => ds
  | li, l :: rest, ds =>
    let ds' :=
      if l.resolved_tile.isSome ∧ layerApplies cfg gx gy depth mixv strav li l then
        l.resolved_tile
      else ds
    layersFold cfg gx gy depth mixv strav (li + 1) rest ds'

/-- Deep-stone resolution (world_generator.cpp:747): the cached stone
tile, overridden by the selected province tile when resolved, then by
applicable mixture layers. -/
def deepStoneFor (cfg : GenConfig) (gx gy : ℤ) (depth : ℤ) (pv mixv strav : ℚ) : Option Tile :=
  if cfg.provinces.isEmpty then cfg.stone_tile
  else
    let pidx := (provinceIndex pv strav cfg.strata_noise.isSome cfg.provinces.length).toNat
    let prov := cfg.provinces.getD pidx default
    let ds0 := match prov.resolved_tile with
      | some t => some t
      | none => cfg.stone_tile
    layersFold cfg gx gy depth mixv strav 0 prov.layers ds0

/-- Thickness of one block-layer entry at a column (world_generator.cpp:856):
the positional-hash jitter between min and max thickness. -/
def entryThickness (cfg : GenConfig) (gx : ℤ) (current_depth : ℤ) (e : BlockLayerEntry) : ℤ :=
  if e.min_thickness = e.max_thickness then e.max_thickness
  else
    let h := ixor32 (wrap32 (gx * 73856093)) (wrap32 (cfg.global_seed + current_depth * 99))
    let t : ℚ := ((h.natAbs % 100 : ℕ) : ℚ) / 100
    e.min_thickness + truncQ (t * ((e.max_thickness - e.min_thickness : ℤ) : ℚ))

/-- The block-layer entries walk (world_generator.cpp:851): find the entry
covering the cell depth; at the matched entry pick the exposure-dependent
tile, keeping the deep stone whenever the chosen entry tile is
unresolved; past all entries fall back to the deep stone. -/
def entriesGo (cfg : GenConfig) (gx : ℤ) (depth : ℤ)
    (is_exposed is_natural : Bool) (deep : Option Tile) :
    ℕ → ℤ → List BlockLayerEntry → Option Tile
  | _, _, [] => deep
  | i, cd, e :: rest =>
    let th := entryThickness cfg gx cd e
    if depth < cd + th then
      if i = 0 ∧ is_exposed ∧ is_natural then
        match e.resolved_tile with
        | some t => some t
        | none => deep
      else if i = 0 then
        match rest with
        | e2 :: _ =>
          match e2.resolved_tile with
          | some t => some t
          | none => deep
        | [] =>
          match e.resolved_tile with
          | some t => some t
          | none => deep
      else
        match e.resolved_tile with
        | some t => some t
        | none => deep
    else entriesGo cfg gx depth is_exposed is_natural deep (i + 1) (cd + th) rest

/-- The full tile decision for one cell (world_generator.cpp:693), taking
the four density values the decision branches on. -/
def tileDecision (cfg : GenConfig) (col : ColumnData) (gx gy : ℤ)
    (final base finalAbove baseAbove : ℚ) (pv mixv strav : ℚ) : Option Tile :=
  if 0 < final then
    let is_exposed := finalAbove ≤ 0
    let is_natural := finalAbove ≤ 0 ∧ baseAbove ≤ 0
    let depth := max 0 (truncQ (col.surface_height - gy))
    let deep := deepStoneFor cfg gx gy depth pv mixv strav
    match col.active_layer with
    | some al =>
      if al.entries.isEmpty then deep
      else entriesGo cfg gx depth is_exposed is_natural deep 0 0 al.entries
    | none => deep
  else
    if gy < cfg.sea_level then
      if base ≤ 0 then cfg.water_tile else none
    else none

/-- Final density of the cell at local (x, y) of chunk (cx, cy), exactly
as the batched per-cell loop computes it. -/
def cellFinalDensity (cfg : GenConfig) (cx cy : ℤ) (x y : Fin SIZE) : ℚ :=
  batchFinal cfg (columnData cfg (cx * 32 + x.val)) (cx * 32 + x.val) (cy * 32 + y.val)

/-- Base density of the cell at local (x, y), batched path. -/
def cellBaseDensity (cfg : GenConfig) (cx cy : ℤ) (x y : Fin SIZE) : ℚ :=
  batchBase cfg (columnData cfg (cx * 32 + x.val)) (cx * 32 + x.val) (cy * 32 + y.val)

/-- Density of the cell above: buffered approximation inside the chunk,
scalar get_density_final fallback on the top row (world_generator.cpp:703). -/
def cellAboveFinal (cfg : GenConfig) (cx cy : ℤ) (x y : Fin SIZE) : ℚ :=
  let gx := cx * 32 + (x.val : ℤ)
  let gy := cy * 32 + (y.val : ℤ)
  let col := columnData cfg gx
  if y.val + 1 < SIZE then batchAboveFinal cfg col gx gy
  else get_density_final cfg gx (gy + 1) col.surface_height col.overhang_strength

/-- Base density of the cell above (same split as cellAboveFinal). -/
def cellAboveBase (cfg : GenConfig) (cx cy : ℤ) (x y : Fin SIZE) : ℚ :=
  let gx := cx * 32 + (x.val : ℤ)
  let gy := cy * 32 + (y.val : ℤ)
  let col := columnData cfg gx
  if y.val + 1 < SIZE then batchAboveBase cfg col gx gy
  else get_base_density cfg gx (gy + 1) col.surface_height col.overhang_strength

/-- Tile written to local cell (x, y) of chunk (cx, cy) by generate_chunk. -/
def cellTile (cfg : GenConfig) (cx cy : ℤ) (x y : Fin SIZE) : Option Tile :=
  let gx := cx * 32 + (x.val : ℤ)
  let gy := cy * 32 + (y.val : ℤ)
  tileDecision cfg (columnData cfg gx) gx gy
    (cellFinalDensity cfg cx cy x y) (cellBaseDensity cfg cx cy x y)
    (cellAboveFinal cfg cx cy x y) (cellAboveBase cfg cx cy x y)
    (provinceVal cfg gx gy) (mixVal cfg gx gy) (strataVal cfg gx gy)

/-- A generated chunk: the 32 x 32 tile grid and the parallel climate grid. -/
structure Chunk where
  tile : Fin SIZE → Fin SIZE → Option Tile
  climate : Fin SIZE → Fin SIZE → ℚ × ℚ

/-- world_generator_t::generate_chunk: none models the early return on an
empty landform table (the chunk is then left unpopulated); otherwise
every cell of both grids is produced. Climate is the per-column pair,
independent of y (world_generator.cpp:918). -/
def generate_chunk (cfg : GenConfig) (cx cy : ℤ) : Option Chunk :=
  if cfg.landforms.isEmpty then none
  else
    some
      { tile := fun x y => cellTile cfg cx cy x y
        climate := fun x _y =>
          let col := columnData cfg (cx * 32 + (x.val : ℤ))
          (col.climate_t, col.climate_r) }

/-- One call of the member function on the generator state: the C++ body
writes only chunk cells and stack locals, never a member field, so the
post-state is the pre-state. -/
def generate_chunk_call (cfg : GenConfig) (cx cy : ℤ) : Option Chunk × GenConfig :=
  (generate_chunk cfg cx cy, cfg)

/-- The alternative evaluator the cache-transparency property describes:
every cell and every above-cell density recomputed from scratch with the
scalar density functions get_density_final / get_base_density. -/
def cellTileScalar (cfg : GenConfig) (cx cy : ℤ) (x y : Fin SIZE) : Option Tile :=
  let gx := cx * 32 + (x.val : ℤ)
  let gy := cy * 32 + (y.val : ℤ)
  let col := columnData cfg gx
  tileDecision cfg col gx gy
    (get_density_final cfg gx gy col.surface_height col.overhang_strength)
    (get_base_density cfg gx gy col.surface_height col.overhang_strength)
    (get_density_final cfg gx (gy + 1) col.surface_height col.overhang_strength)
    (get_base_density cfg gx (gy + 1) col.surface_height col.overhang_strength)
    (provinceVal cfg gx gy) (mixVal cfg gx gy) (strataVal cfg gx gy)

/-- generate_chunk with the per-cell fast path replaced by the scalar
density functions (the recompute-from-scratch variant of the claim). -/
def generate_chunk_scalar (cfg : GenConfig) (cx cy : ℤ) : Option Chunk :=
  if cfg.landforms.isEmpty then none
  else
    some
      { tile := fun x y => cellTileScalar cfg cx cy x y
        climate := fun x _y =>
          let col := columnData cfg (cx * 32 + (x.val : ℤ))
          (col.climate_t, col.climate_r) }

/-- The (landform, weight) pairs implicit in the column blend: the two
bracketing landforms with barycentric weights (1 - t) and t, merged to a
single weight-1 pair when both indices coincide (the blend
surface = h1 + (h2 - h1) * t = (1 - t) * h1 + t * h2). -/
def landformWeights (lfs : List Landform) (cv : ℚ) : List (ℕ × ℚ) :=
  let sel := landformInterp lfs cv
  if sel.1 = sel.2.1 then [(sel.1, 1)]
  else [(sel.1, 1 - sel.2.2), (sel.2.1, sel.2.2)]

/-- The (province, weight) pairs used for geologic constraints: the code
selects a single province by index, so the set is that province with
weight 1. -/
def provinceWeights (n : ℕ) (pv sv : ℚ) (useStrata : Bool) : List (ℕ × ℚ) :=
  [((provinceIndex pv sv useStrata n).toNat, 1)]

/-- Total weight of a weight set. -/
def weightSum (l : List (ℕ × ℚ)) : ℚ := (l.map Prod.snd).sum

/-- Modelled from the spec: rock-stratum rule of the Rock Strata
Allocator (spec section 4.5). The implementation of
world_generator_t::get_rock_strata is absent from the sources (only its
declaration in world_generator.hpp and the rule structs in
world_gen_context.hpp exist), so the rule carries exactly what the
allocation walk needs: the target block code, the rock group charged for
the thickness, and the generation direction. -/
structure StrataRuleM where
  block_code : String
  rock_group : String
  bottom_up : Bool
  deriving DecidableEq

/-- Modelled from the spec: geologic province rule (spec section 3 and
world_gen_context.hpp geologic_province_variant_t): code, selection
weight and a map from rock-group name to maximum cumulative thickness. -/
structure ProvinceM where
  code : String
  rock_strata_thickness : List (String × ℚ)
  weight : ℚ
  deriving DecidableEq

/-- Thickness budget a province grants a rock group (0 when the group is
not in the map). -/
def lookupThickness (p : ProvinceM) (g : String) : ℚ :=
  match p.rock_strata_thickness.find? (fun q => q.1 == g) with
  | some q => q.2
  | none => 0

/-- Modelled from the spec: the blended per-rock-group budget of a
column, the weighted accumulation of each sampled province's budget for
the group (spec section 4.4). -/
def blended_budget (pws : List (ProvinceM × ℚ)) (g : String) : ℚ :=
  (pws.map (fun pw => pw.2 * lookupThickness pw.1 g)).sum

/-- Modelled from the spec: the allocation walk of the Rock Strata
Allocator (spec section 4.5). For each rule in declared order: a raw
noise thickness mapped through the fixed linear transform
(base offset + scale), clamped to the remaining budget of the rule's
rock group; thicknesses of at least 2 cells are recorded and decrement
the group's remaining budget. -/
def allocGo (base scale : ℚ) (raw : ℕ → ℚ) :
    ℕ → (String → ℚ) → List StrataRuleM → List (String × ℚ)
  | _, _, [] => []
  | i, rem, r :: rest =>
    let t := min (base + scale * raw i) (rem r.rock_group)
    if 2 ≤ t then
      (r.rock_group, t) ::
        allocGo base scale raw (i + 1)
          (fun g => if g = r.rock_group then rem g - t else rem g) rest
    else allocGo base scale raw (i + 1) rem rest

/-- Modelled from the spec: rock strata allocation for one column, from
the blended budgets. -/
def get_rock_strata_alloc (budget : String → ℚ) (base scale : ℚ) (raw : ℕ → ℚ)
    (rules : List StrataRuleM) : List (String × ℚ) :=
  allocGo base scale raw 0 budget rules

/-- Sum of the thicknesses a recorded allocation assigns to one group. -/
def allocatedFor (g : String) (l : List (String × ℚ)) : ℚ :=
  ((l.filter (fun p => p.1 == g)).map Prod.snd).sum

/-- A constant-zero noise function, for concrete instantiations. -/
def sb0 : NoiseFn := fun _ _ _ => 0

/-- A minimal concrete generator configuration: one flat landform with
surface height 2 and no overhang, no noise nodes, empty block-layer and
province tables, both cave types disabled, resolved stone and water
tiles. -/
def cfgW : GenConfig :=
  { global_seed := 1
    sea_level := 500
    landforms := [⟨0, 2, 0, 0⟩]
    landform_noises := [none]
    block_layers := []
    provinces := []
    cave := ⟨false, 1 / 2, 30, 501, false, 8 / 100, 0, 40, 601, 20⟩
    continental_noise := none
    temp_noise := none
    rain_noise := none
    overhang_noise := none
    cheese_noise := none
    worm_noise := none
    province_noise := none
    province_mix_noise := none
    strata_noise := none
    stone_tile := some "granite"
    water_tile := some "water"
    sinQ := fun _ => 0 }

/-- cfgW with an empty landform table. -/
def cfgE : GenConfig := { cfgW with landforms := [], landform_noises := [] }

/-- cfgW with overhang strength 1 and an overhang noise node that
returns -1 exactly at y-coordinate 1: the batched path samples it at
(x, gy) while get_base_density samples it at (x, 1.5 * gy), so the two
paths disagree at global cell (0, 1). -/
def cfgC5 : GenConfig :=
  { cfgW with
    landforms := [⟨0, 2, 0, 1⟩]
    overhang_noise := some (fun _ y _ => if y = 1 then -1 else 0) }

/-- The chunk generate_chunk produces for cfgW at chunk (0, 0). -/
def chunkW : Chunk :=
  { tile := fun x y => cellTile cfgW 0 0 x y
    climate := fun x _y =>
      let col := columnData cfgW (0 * 32 + (x.val : ℤ))
      (col.climate_t, col.climate_r) }

/-- The chunk generate_chunk produces for cfgW at chunk (0, 16), which
lies entirely above sea level (global y from 512 to 543). -/
def chunkW16 : Chunk :=
  { tile := fun x y => cellTile cfgW 0 16 x y
    climate := fun x _y =>
      let col := columnData cfgW (0 * 32 + (x.val : ℤ))
      (col.climate_t, col.climate_r) }

/-- A concrete province weight set: one province granting the
sedimentary group thickness 10, with weight 1. -/
def pwsW : List (ProvinceM × ℚ) :=
  [(⟨"plains", [("sedimentary", 10)], 1⟩, 1)]

/-- Two concrete stratum rules: a sedimentary stratum and an igneous one
(the igneous group has no budget in pwsW). -/
def rulesW : List StrataRuleM :=
  [⟨"rock-limestone", "sedimentary", true⟩, ⟨"rock-granite", "igneous", true⟩]

theorem Chunk.ext {c1 c2 : Chunk} (ht : c1.tile = c2.tile)
    (hc : c1.climate = c2.climate) : c1 = c2 := by
  cases c1; cases c2; cases ht; cases hc; rfl

/-- C1: generate_chunk is a deterministic function of the generator
state and the chunk coordinates: a call leaves the generator state
unchanged, and a second call on that unchanged state returns the same
chunk (tile grid and climate grid alike). -/
theorem generate_chunk_deterministic (cfg : GenConfig) (cx cy : ℤ) :
    (generate_chunk_call cfg cx cy).1 =
        (generate_chunk_call (generate_chunk_call cfg cx cy).2 cx cy).1 ∧
      (generate_chunk_call cfg cx cy).2 = cfg :=
  ⟨rfl, rfl⟩

/-- C4 counterexample: with an empty landform table, generate_chunk
returns without producing any output (the guard at
world_generator.cpp:491), instead of synthesizing a default landform. -/
theorem generate_chunk_empty_landforms_counterexample :
    generate_chunk cfgE 0 0 = none := rfl

/-- C4 amended: generate_chunk produces a fully populated chunk whenever
the landform table is non-empty; an empty table produces no chunk. -/
theorem generate_chunk_total_amended (cfg : GenConfig) (cx cy : ℤ)
    (h : cfg.landforms ≠ []) : (generate_chunk cfg cx cy).isSome := by
  unfold generate_chunk
  rw [if_neg (by simpa using h)]
  rfl

theorem generate_chunk_total_witness : (generate_chunk cfgW 0 0).isSome :=
  generate_chunk_total_amended cfgW 0 0 (by decide)

/-- C9: climate is constant along a column: every cell of a generated
chunk sharing a local x receives the same (temperature, rainfall) pair. -/
theorem climate_column_invariant (cfg : GenConfig) (cx cy : ℤ) (c : Chunk)
    (hc : generate_chunk cfg cx cy = some c) (x y1 y2 : Fin SIZE) :
    c.climate x y1 = c.climate x y2 := by
  unfold generate_chunk at hc
  split at hc
  · exact absurd hc (by simp)
  · cases hc; rfl

theorem climate_column_invariant_witness :
    chunkW.climate 0 0 = chunkW.climate 0 1 :=
  climate_column_invariant cfgW 0 0 chunkW rfl 0 0 1


theorem fadeFor_nonneg (d m f : ℚ) : 0 ≤ fadeFor d m f := by
  unfold fadeFor clampQ
  split
  · exact le_max_left 0 _
  · norm_num

theorem cave_mod_nonpos (cfg : GenConfig) (x y : ℤ) (h : ℚ) :
    get_cave_density_modifier cfg x y h ≤ 0 := by
  simp only [get_cave_density_modifier]
  split
  · exact le_refl 0
  · apply add_nonpos
    · split
      · split
        · rename_i hn
          apply neg_nonpos_of_nonneg
          apply mul_nonneg (mul_nonneg _ (by norm_num)) (fadeFor_nonneg _ _ _)
          linarith
        · exact le_refl 0
      · exact le_refl 0
    · split
      · split <;> split <;>
          first
          | exact neg_nonpos_of_nonneg (mul_nonneg (by norm_num) (fadeFor_nonneg _ _ _))
          | exact le_refl 0
      · exact le_refl 0

/-- C6: the early exit in get_density_final (returning the base density
whenever it is already non-positive, skipping the cave modifier) never
changes the solid/air classification: the sign test on its result agrees
with the sign test on the full sum base + modifier, because the cave
modifier only ever subtracts density. -/
theorem density_final_early_exit_classification (cfg : GenConfig) (x y : ℤ) (h os : ℚ) :
    (0 < get_density_final cfg x y h os ↔
      0 < get_base_density cfg x y h os + get_cave_density_modifier cfg x y h) := by
  have hmod := cave_mod_nonpos cfg x y h
  simp only [get_density_final]
  by_cases hb : get_base_density cfg x y h os ≤ 0
  · rw [if_pos hb]
    exact iff_of_false (not_lt.mpr hb) (not_lt.mpr (add_nonpos hb hmod))
  · rw [if_neg hb]

/-- C10: for a non-empty province table the computed province index is
in bounds: the clamp to [0, 0.99] before scaling guarantees
0 <= index < size for every noise value. -/
theorem province_index_in_bounds (pv sv : ℚ) (b : Bool) (n : ℕ) (hn : 0 < n) :
    0 ≤ provinceIndex pv sv b n ∧ provinceIndex pv sv b n < n := by
  simp only [provinceIndex, clampQ]
  set q := (pv + (if b then sv * (15 / 100) else 0) + 1) * (1 / 2) with hq
  have h0 : (0 : ℚ) ≤ max 0 (min (99 / 100) q) := le_max_left 0 _
  have h99 : max 0 (min (99 / 100) q) ≤ 99 / 100 :=
    max_le (by norm_num) (min_le_left _ _)
  have hprod : (0 : ℚ) ≤ max 0 (min (99 / 100) q) * n :=
    mul_nonneg h0 (Nat.cast_nonneg n)
  rw [truncQ, if_pos hprod]
  constructor
  · exact Int.floor_nonneg.mpr hprod
  · have hlt : max 0 (min (99 / 100) q) * n < n := by
      calc max 0 (min (99 / 100) q) * n ≤ (99 / 100) * n :=
            mul_le_mul_of_nonneg_right h99 (Nat.cast_nonneg n)
        _ < 1 * n := by
            apply mul_lt_mul_of_pos_right (by norm_num)
            exact_mod_cast hn
        _ = n := one_mul _
    exact Int.floor_lt.mpr (by exact_mod_cast hlt)

theorem province_index_in_bounds_witness :
    0 ≤ provinceIndex 0 0 true 3 ∧ provinceIndex 0 0 true 3 < 3 :=
  province_index_in_bounds 0 0 true 3 (by decide)

/-- C8: the landform weight set implicit in the blend and the province
weight set both have total weight exactly 1 for every input. -/
theorem blend_weight_sums (lfs : List Landform) (cv : ℚ) (n : ℕ) (pv sv : ℚ) (b : Bool) :
    weightSum (landformWeights lfs cv) = 1 ∧
      weightSum (provinceWeights n pv sv b) = 1 := by
  constructor
  · simp only [landformWeights, weightSum]
    by_cases hii : (landformInterp lfs cv).1 = (landformInterp lfs cv).2.1
    · simp [hii]
    · simp [hii]
  · simp [provinceWeights, weightSum]

theorem customNoiseGo_nonneg (sb : NoiseFn) (seed : ℤ) (x y : ℚ) :
    ∀ (amps : List ℚ) (i : ℕ) (ths freqs : List ℚ),
      0 ≤ customNoiseGo sb seed x y i amps ths freqs := by
  intro amps
  induction amps with
  | nil => intro i ths freqs; simp [customNoiseGo]
  | cons a as ih =>
    intro i ths freqs
    simp only [customNoiseGo]
    apply add_nonneg _ (ih (i + 1) ths.tail freqs.tail)
    split
    · exact le_max_left 0 _
    · exact le_refl 0

theorem customNoiseGo_eq_spec (sb : NoiseFn) (seed : ℤ) (x y : ℚ) :
    ∀ (amps : List ℚ) (i : ℕ) (ths freqs : List ℚ), (∀ a ∈ amps, a ≠ 0) →
      customNoiseGo sb seed x y i amps ths freqs =
        customNoiseSpecGo sb seed x y i amps ths freqs := by
  intro amps
  induction amps with
  | nil => intro i ths freqs _; rfl
  | cons a as ih =>
    intro i ths freqs h
    simp only [customNoiseGo, customNoiseSpecGo]
    rw [if_pos (h a (List.mem_cons_self a as)),
      ih (i + 1) ths.tail freqs.tail (fun b hb => h b (List.mem_cons_of_mem a hb))]

/-- C3 amended: the custom weighted sampler is non-negative for every
input, and it equals the spec formula
sum of max(0, ((noise+1)/2 * amplitude) - threshold) whenever every
octave amplitude is nonzero; octaves with zero amplitude are skipped
(contributing 0 rather than max(0, -threshold)). -/
theorem get_custom_noise_amended (sb : NoiseFn) (seed : ℤ) (x y : ℚ)
    (amps ths freqs : List ℚ) :
    0 ≤ get_custom_noise sb seed x y amps ths freqs ∧
      ((∀ a ∈ amps, a ≠ 0) →
        get_custom_noise sb seed x y amps ths freqs =
          custom_noise_spec sb seed x y amps ths freqs) :=
  ⟨customNoiseGo_nonneg sb seed x y amps 0 ths freqs,
   fun h => customNoiseGo_eq_spec sb seed x y amps 0 ths freqs h⟩

/-- C3 counterexample: an octave with amplitude 0 and threshold -1 is
skipped by the code (contributing 0) while the spec formula assigns it
max(0, 0 - (-1)) = 1, so the sampler does not return the claimed sum. -/
theorem get_custom_noise_counterexample :
    get_custom_noise sb0 0 0 0 [0] [-1] [1] = 0 ∧
      custom_noise_spec sb0 0 0 0 [0] [-1] [1] = 1 := by decide

theorem get_custom_noise_witness :
    0 ≤ get_custom_noise sb0 3 0 0 [1] [] [] ∧
      get_custom_noise sb0 3 0 0 [1] [] [] = custom_noise_spec sb0 3 0 0 [1] [] [] :=
  ⟨(get_custom_noise_amended sb0 3 0 0 [1] [] []).1,
   (get_custom_noise_amended sb0 3 0 0 [1] [] []).2 (by decide)⟩



theorem allocatedFor_cons (g a : String) (t : ℚ) (l : List (String × ℚ)) :
    allocatedFor g ((a, t) :: l) = (if a == g then t else 0) + allocatedFor g l := by
  by_cases hab : (a == g) = true
  · simp [allocatedFor, List.filter_cons, hab]
  · simp only [Bool.not_eq_true] at hab
    simp [allocatedFor, List.filter_cons, hab]

theorem allocGo_le (base scale : ℚ) (raw : ℕ → ℚ) :
    ∀ (rules : List StrataRuleM) (i : ℕ) (rem : String → ℚ) (g : String),
      0 ≤ rem g → allocatedFor g (allocGo base scale raw i rem rules) ≤ rem g := by
  intro rules
  induction rules with
  | nil => intro i rem g hg; simpa [allocGo, allocatedFor] using hg
  | cons r rest ih =>
    intro i rem g hg
    simp only [allocGo]
    split
    · rw [allocatedFor_cons]
      set t := min (base + scale * raw i) (rem r.rock_group) with hts
      by_cases hgg : r.rock_group = g
      · have hgeq : g = r.rock_group := hgg.symm
        have htle : t ≤ rem g := by
          rw [hts]
          exact hgg ▸ min_le_right _ _
        rw [if_pos (show (r.rock_group == g) = true by simp [hgg])]
        have hrec := ih (i + 1)
          (fun g' => if g' = r.rock_group then rem g' - t else rem g') g
          (by
            show 0 ≤ if g = r.rock_group then rem g - t else rem g
            rw [if_pos hgeq]
            exact sub_nonneg.mpr htle)
        simp only [if_pos hgeq] at hrec
        linarith
      · have hgne : ¬(g = r.rock_group) := fun hh => hgg hh.symm
        rw [if_neg (show ¬(r.rock_group == g) = true by simp [hgg])]
        have hrec := ih (i + 1)
          (fun g' => if g' = r.rock_group then rem g' - t else rem g') g
          (by
            show 0 ≤ if g = r.rock_group then rem g - t else rem g
            rw [if_neg hgne]
            exact hg)
        rw [zero_add]
        simpa only [if_neg hgne] using hrec
    · exact ih (i + 1) rem g hg

/-- C7 (spec-modelled): for every rock group, the total thickness the
allocation walk records for that group never exceeds the blended
province budget of the group, because every recorded thickness is
clamped to the remaining budget and decrements it. -/
theorem rock_strata_budget_conservation (pws : List (ProvinceM × ℚ))
    (base scale : ℚ) (raw : ℕ → ℚ) (rules : List StrataRuleM) (g : String)
    (hg : 0 ≤ blended_budget pws g) :
    allocatedFor g (get_rock_strata_alloc (blended_budget pws) base scale raw rules) ≤
      blended_budget pws g :=
  allocGo_le base scale raw rules 0 (blended_budget pws) g hg

theorem rock_strata_budget_conservation_witness :
    0 ≤ blended_budget pwsW "sedimentary" ∧
      allocatedFor "sedimentary"
          (get_rock_strata_alloc (blended_budget pwsW) 2 1 (fun _ => 3) rulesW) ≤
        blended_budget pwsW "sedimentary" :=
  ⟨by decide,
   rock_strata_budget_conservation pwsW 2 1 (fun _ => 3) rulesW "sedimentary" (by decide)⟩


theorem layersFold_isSome (cfg : GenConfig) (gx gy : ℤ) (depth : ℤ) (mixv strav : ℚ) :
    ∀ (ls : List ProvinceLayer) (li : ℕ) (ds : Option Tile), ds.isSome →
      (layersFold cfg gx gy depth mixv strav li ls ds).isSome := by
  intro ls
  induction ls with
  | nil => intro li ds h; simpa [layersFold] using h
  | cons l rest ih =>
    intro li ds h
    simp only [layersFold]
    apply ih
    split
    · rename_i hcond
      exact hcond.1
    · exact h

theorem deepStoneFor_isSome (cfg : GenConfig) (gx gy : ℤ) (depth : ℤ)
    (pv mixv strav : ℚ) (hst : cfg.stone_tile.isSome) :
    (deepStoneFor cfg gx gy depth pv mixv strav).isSome := by
  simp only [deepStoneFor]
  split
  · exact hst
  · apply layersFold_isSome
    split
    · simp
    · exact hst

theorem entriesGo_isSome (cfg : GenConfig) (gx : ℤ) (depth : ℤ)
    (iexp inat : Bool) (deep : Option Tile) (hd : deep.isSome) :
    ∀ (l : List BlockLayerEntry) (i : ℕ) (cd : ℤ),
      (entriesGo cfg gx depth iexp inat deep i cd l).isSome := by
  intro l
  induction l with
  | nil => intro i cd; simpa [entriesGo] using hd
  | cons e rest ih =>
    intro i cd
    simp only [entriesGo]
    split
    · split
      · split
        · simp
        · exact hd
      · split
        · split
          · split
            · simp
            · exact hd
          · split
            · simp
            · exact hd
        · split
          · simp
          · exact hd
    · exact ih (i + 1) _

theorem tileDecision_solid_isSome (cfg : GenConfig) (col : ColumnData) (gx gy : ℤ)
    (final base finalAbove baseAbove pv mixv strav : ℚ)
    (hst : cfg.stone_tile.isSome) (hf : 0 < final) :
    (tileDecision cfg col gx gy final base finalAbove baseAbove pv mixv strav).isSome := by
  simp only [tileDecision, if_pos hf]
  split
  · split
    · exact deepStoneFor_isSome cfg gx gy _ pv mixv strav hst
    · exact entriesGo_isSome cfg gx _ _ _ _
        (deepStoneFor_isSome cfg gx gy _ pv mixv strav hst) _ 0 0
  · exact deepStoneFor_isSome cfg gx gy _ pv mixv strav hst

theorem tileDecision_air (cfg : GenConfig) (col : ColumnData) (gx gy : ℤ)
    (final base finalAbove baseAbove pv mixv strav : ℚ)
    (hf : final ≤ 0) (hsea : cfg.sea_level ≤ gy) :
    tileDecision cfg col gx gy final base finalAbove baseAbove pv mixv strav = none := by
  simp only [tileDecision, if_neg (not_lt.mpr hf), if_neg (not_lt.mpr hsea)]

/-- C2: density classification of assembled cells: when a generated
cell's final density is positive the written tile is never air (given
the generic deep-rock tile resolved at construction, the fallback chain
only ever selects resolved tiles); when the final density is
non-positive and the cell lies at or above sea level the cell is air,
not water. -/
theorem generate_chunk_density_classification (cfg : GenConfig) (cx cy : ℤ)
    (x y : Fin SIZE) (c : Chunk) (hc : generate_chunk cfg cx cy = some c)
    (hst : cfg.stone_tile.isSome) :
    (0 < cellFinalDensity cfg cx cy x y → c.tile x y ≠ none) ∧
      (cellFinalDensity cfg cx cy x y ≤ 0 → cfg.sea_level ≤ cy * 32 + (y.val : ℤ) →
        c.tile x y = none) := by
  have hct : c.tile x y = cellTile cfg cx cy x y := by
    unfold generate_chunk at hc
    split at hc
    · exact absurd hc (by simp)
    · cases hc; rfl
  constructor
  · intro hf
    rw [hct]
    exact Option.ne_none_iff_isSome.mpr
      (tileDecision_solid_isSome cfg _ _ _ _ _ _ _ _ _ _ hst hf)
  · intro hf hsea
    rw [hct]
    exact tileDecision_air cfg _ _ _ _ _ _ _ _ _ _ hf hsea

theorem generate_chunk_density_classification_witness :
    chunkW.tile 0 0 ≠ none ∧ chunkW16.tile 0 0 = none :=
  ⟨(generate_chunk_density_classification cfgW 0 0 0 0 chunkW rfl rfl).1 (by decide),
   (generate_chunk_density_classification cfgW 0 16 0 0 chunkW16 rfl rfl).2
     (by decide) (by decide)⟩


theorem overhang_off_cond (cfg : GenConfig) (os : ℚ)
    (h : os ≤ 1 / 1000 ∨ cfg.overhang_noise = none) :
    ¬(1 / 1000 < os ∧ cfg.overhang_noise.isSome) := by
  rintro ⟨h1, h2⟩
  rcases h with h | h
  · exact absurd h1 (not_lt.mpr h)
  · rw [h] at h2
    exact absurd h2 (by simp)

theorem batchBase_overhang_off (cfg : GenConfig) (col : ColumnData) (gx gy : ℤ)
    (h : col.overhang_strength ≤ 1 / 1000 ∨ cfg.overhang_noise = none) :
    batchBase cfg col gx gy = col.surface_height - gy := by
  simp only [batchBase, if_neg (overhang_off_cond cfg _ h), add_zero]

theorem batchAboveBase_overhang_off (cfg : GenConfig) (col : ColumnData) (gx gy : ℤ)
    (h : col.overhang_strength ≤ 1 / 1000 ∨ cfg.overhang_noise = none) :
    batchAboveBase cfg col gx gy = col.surface_height - (gy + 1) := by
  simp only [batchAboveBase, if_neg (overhang_off_cond cfg _ h), add_zero]

theorem get_base_density_overhang_off (cfg : GenConfig) (x y : ℤ) (sh os : ℚ)
    (h : os ≤ 1 / 1000 ∨ cfg.overhang_noise = none) :
    get_base_density cfg x y sh os = sh - y := by
  simp only [get_base_density, if_neg (overhang_off_cond cfg _ h)]

theorem batchCaveMod_caves_off (cfg : GenConfig) (col : ColumnData) (gx gy : ℤ)
    (hch : cfg.cave.cheese_enabled = false) (hwm : cfg.cave.worm_enabled = false) :
    batchCaveMod cfg col gx gy = 0 := by
  simp [batchCaveMod, hch, hwm]

theorem batchFinal_caves_off (cfg : GenConfig) (col : ColumnData) (gx gy : ℤ)
    (hch : cfg.cave.cheese_enabled = false) (hwm : cfg.cave.worm_enabled = false) :
    batchFinal cfg col gx gy = batchBase cfg col gx gy := by
  simp only [batchFinal]
  split
  · rw [batchCaveMod_caves_off cfg col gx gy hch hwm, add_zero]
  · rfl

theorem get_cave_density_modifier_caves_off (cfg : GenConfig) (x y : ℤ) (sh : ℚ)
    (hch : cfg.cave.cheese_enabled = false) (hwm : cfg.cave.worm_enabled = false) :
    get_cave_density_modifier cfg x y sh = 0 := by
  simp [get_cave_density_modifier, hch, hwm]

theorem get_density_final_caves_off (cfg : GenConfig) (x y : ℤ) (sh os : ℚ)
    (hch : cfg.cave.cheese_enabled = false) (hwm : cfg.cave.worm_enabled = false) :
    get_density_final cfg x y sh os = get_base_density cfg x y sh os := by
  simp only [get_density_final]
  split
  · rfl
  · rw [get_cave_density_modifier_caves_off cfg x y sh hch hwm, add_zero]

theorem batchAboveFinal_caves_off (cfg : GenConfig) (col : ColumnData) (gx gy : ℤ)
    (hch : cfg.cave.cheese_enabled = false) (hwm : cfg.cave.worm_enabled = false) :
    batchAboveFinal cfg col gx gy = batchAboveBase cfg col gx gy := by
  simp [batchAboveFinal, hch, hwm]

theorem cellTile_scalar_eq (cfg : GenConfig) (cx cy : ℤ) (x y : Fin SIZE)
    (hch : cfg.cave.cheese_enabled = false) (hwm : cfg.cave.worm_enabled = false)
    (hov : (columnData cfg (cx * 32 + (x.val : ℤ))).overhang_strength ≤ 1 / 1000 ∨
      cfg.overhang_noise = none) :
    cellTile cfg cx cy x y = cellTileScalar cfg cx cy x y := by
  have e1 : cellFinalDensity cfg cx cy x y =
      get_density_final cfg (cx * 32 + (x.val : ℤ)) (cy * 32 + (y.val : ℤ))
        (columnData cfg (cx * 32 + (x.val : ℤ))).surface_height
        (columnData cfg (cx * 32 + (x.val : ℤ))).overhang_strength := by
    rw [cellFinalDensity, batchFinal_caves_off _ _ _ _ hch hwm,
      batchBase_overhang_off _ _ _ _ hov,
      get_density_final_caves_off _ _ _ _ _ hch hwm,
      get_base_density_overhang_off _ _ _ _ _ hov]
  have e2 : cellBaseDensity cfg cx cy x y =
      get_base_density cfg (cx * 32 + (x.val : ℤ)) (cy * 32 + (y.val : ℤ))
        (columnData cfg (cx * 32 + (x.val : ℤ))).surface_height
        (columnData cfg (cx * 32 + (x.val : ℤ))).overhang_strength := by
    rw [cellBaseDensity, batchBase_overhang_off _ _ _ _ hov,
      get_base_density_overhang_off _ _ _ _ _ hov]
  have e3 : cellAboveFinal cfg cx cy x y =
      get_density_final cfg (cx * 32 + (x.val : ℤ)) (cy * 32 + (y.val : ℤ) + 1)
        (columnData cfg (cx * 32 + (x.val : ℤ))).surface_height
        (columnData cfg (cx * 32 + (x.val : ℤ))).overhang_strength := by
    rw [cellAboveFinal]
    split
    · rw [batchAboveFinal_caves_off _ _ _ _ hch hwm,
        batchAboveBase_overhang_off _ _ _ _ hov,
        get_density_final_caves_off _ _ _ _ _ hch hwm,
        get_base_density_overhang_off _ _ _ _ _ hov]
      push_cast
      ring
    · rfl
  have e4 : cellAboveBase cfg cx cy x y =
      get_base_density cfg (cx * 32 + (x.val : ℤ)) (cy * 32 + (y.val : ℤ) + 1)
        (columnData cfg (cx * 32 + (x.val : ℤ))).surface_height
        (columnData cfg (cx * 32 + (x.val : ℤ))).overhang_strength := by
    rw [cellAboveBase]
    split
    · rw [batchAboveBase_overhang_off _ _ _ _ hov,
        get_base_density_overhang_off _ _ _ _ _ hov]
      push_cast
      ring
    · rfl
  rw [cellTile, cellTileScalar, e1, e2, e3, e4]

/-- C5 amended: the per-column memoization is output-transparent, and
the batched fast path agrees with the scalar density functions exactly
when both cave types are disabled and overhang is inactive on every
column of the chunk; under those conditions recomputing every cell with
get_density_final / get_base_density yields the identical chunk. In
general the fast path is an approximation that can change cells (see the
counterexample). -/
theorem cache_transparency_amended (cfg : GenConfig) (cx cy : ℤ)
    (hch : cfg.cave.cheese_enabled = false) (hwm : cfg.cave.worm_enabled = false)
    (hov : ∀ x : Fin SIZE,
      (columnData cfg (cx * 32 + (x.val : ℤ))).overhang_strength ≤ 1 / 1000 ∨
        cfg.overhang_noise = none) :
    generate_chunk cfg cx cy = generate_chunk_scalar cfg cx cy := by
  unfold generate_chunk generate_chunk_scalar
  split
  · rfl
  · exact congrArg some (Chunk.ext
      (funext fun x => funext fun y => cellTile_scalar_eq cfg cx cy x y hch hwm (hov x))
      rfl)

/-- C5 counterexample: for cfgC5 the batched path and the scalar
recomputation disagree at local cell (0, 1) of chunk (0, 0): the batched
overhang sample at (0, 1) carves the cell to water while
get_base_density samples the overhang noise at (0, 1.5) and keeps it
solid granite. -/
theorem cache_transparency_counterexample :
    Option.map (fun c => c.tile 0 1) (generate_chunk cfgC5 0 0) = some (some "water") ∧
      Option.map (fun c => c.tile 0 1) (generate_chunk_scalar cfgC5 0 0) =
        some (some "granite") := by
  constructor
  · decide
  · decide

theorem cache_transparency_witness :
    cfgW.cave.cheese_enabled = false ∧ cfgW.cave.worm_enabled = false ∧
      generate_chunk cfgW 0 0 = generate_chunk_scalar cfgW 0 0 :=
  ⟨rfl, rfl, cache_transparency_amended cfgW 0 0 rfl rfl (fun _ => Or.inr rfl)⟩


end Deepbound
